import Mathlib

/-!
Shallow embedding of libbacktrace's BacktraceMap
(src/libbacktrace/include/backtrace/BacktraceMap.h).

The repository ships only the header: the inline members (GetFlags,
IsReadable/IsWritable/IsExecutable, IsValid, SetSuffixesToIgnore,
GetSuffixesToIgnore, size, begin/end) are embedded from their source bodies,
while the out-of-line virtual members (FillIn, Build, ParseLine) are modelled
from the specification, as marked on each definition.

Machine integers: uintptr_t values are modelled as Nat (addresses are
non-negative and none of the embedded operations overflow), the C int flag
mask as Nat with bitwise operations.
-/

/-- PROT_NONE from sys/mman.h (0). -/
def PROT_NONE : Nat := 0

/-- PROT_READ from sys/mman.h (0x1). -/
def PROT_READ : Nat := 1

/-- PROT_WRITE from sys/mman.h (0x2). -/
def PROT_WRITE : Nat := 2

/-- PROT_EXEC from sys/mman.h (0x4). -/
def PROT_EXEC : Nat := 4

/-- Special flag to indicate a map is in /dev/. However, a map in
/dev/ashmem/... does not set this flag (header, lines 36-38). -/
def PROT_DEVICE_MAP : Nat := 0x8000

/-- backtrace_map_t (header, lines 40-47). Every numeric field has the C++
default member initializer 0 and name defaults to the empty string, so the
default structure value is exactly a default-initialized backtrace_map_t;
the field end is written end_ because end is a Lean keyword. -/
structure backtrace_map_t where
  start : Nat := 0
  end_ : Nat := 0
  offset : Nat := 0
  load_bias : Nat := 0
  flags : Nat := 0
  name : String := ""
deriving Repr, DecidableEq, Inhabited

/-- BacktraceMap state: the protected data members (header, lines 121-123).
maps_ is a std::deque of records, modelled as a list in iteration order;
suffixes_to_ignore_ is a std::vector of strings. -/
structure BacktraceMap where
  pid_ : Int := 0
  maps_ : List backtrace_map_t := []
  suffixes_to_ignore_ : List String := []
deriving Repr, DecidableEq, Inhabited

/-- static bool IsValid(const backtrace_map_t& map) { return map.end > 0; }
(header, lines 106-108). -/
def BacktraceMap.IsValid (map : backtrace_map_t) : Bool :=
  decide (map.end_ > 0)

/-- Whether address a lies in the half-open range [start, end) of record m. -/
def inRange (m : backtrace_map_t) (a : Nat) : Prop :=
  m.start ≤ a ∧ a < m.end_

instance (m : backtrace_map_t) (a : Nat) : Decidable (inRange m a) := by
  unfold inRange; infer_instance

/-- Modelled from the spec: the body of BacktraceMap::FillIn is not in the
sources (the header only declares it, line 67). Per the spec it returns the
MappingRecord whose [start, end) range contains the address, or the sentinel
invalid record (end == 0, here the default-initialized record) if none
matches or the store is empty/unbuilt. The spec allows binary search or a
linear scan with identical results; the scan is used here. -/
def BacktraceMap.FillIn (bm : BacktraceMap) (addr : Nat) : backtrace_map_t :=
  match bm.maps_.find? (fun m => decide (inRange m addr)) with
  | some m => m
  | none => {}

/-- int GetFlags(uintptr_t pc) (header, lines 75-82): fills in a record for
pc, returns its flags if IsValid, else PROT_NONE. -/
def BacktraceMap.GetFlags (bm : BacktraceMap) (pc : Nat) : Nat :=
  let map := bm.FillIn pc
  if BacktraceMap.IsValid map then map.flags else PROT_NONE

/-- bool IsReadable(uintptr_t pc) { return GetFlags(pc) & PROT_READ; }
(header, line 84); the C int-to-bool conversion is the nonzero test. -/
def BacktraceMap.IsReadable (bm : BacktraceMap) (pc : Nat) : Bool :=
  bm.GetFlags pc &&& PROT_READ != 0

/-- bool IsWritable(uintptr_t pc) { return GetFlags(pc) & PROT_WRITE; }
(header, line 85). -/
def BacktraceMap.IsWritable (bm : BacktraceMap) (pc : Nat) : Bool :=
  bm.GetFlags pc &&& PROT_WRITE != 0

/-- bool IsExecutable(uintptr_t pc) { return GetFlags(pc) & PROT_EXEC; }
(header, line 86). -/
def BacktraceMap.IsExecutable (bm : BacktraceMap) (pc : Nat) : Bool :=
  bm.GetFlags pc &&& PROT_EXEC != 0

/-- size_t size() const { return maps_.size(); } (header, line 102). -/
def BacktraceMap.size (bm : BacktraceMap) : Nat :=
  bm.maps_.length

/-- void SetSuffixesToIgnore(std::vector<std::string> suffixes) (header,
lines 110-112): inserts the given suffixes at the end of
suffixes_to_ignore_. -/
def BacktraceMap.SetSuffixesToIgnore (bm : BacktraceMap) (suffixes : List String) : BacktraceMap :=
  { bm with suffixes_to_ignore_ := bm.suffixes_to_ignore_ ++ suffixes }

/-- const std::vector<std::string>& GetSuffixesToIgnore() (header, line 114). -/
def BacktraceMap.GetSuffixesToIgnore (bm : BacktraceMap) : List String :=
  bm.suffixes_to_ignore_

/-- Hex digit test (character class [0-9a-fA-F]). -/
def hexDigit (c : Char) : Bool :=
  (decide ('0' ≤ c) && decide (c ≤ '9')) ||
  (decide ('a' ≤ c) && decide (c ≤ 'f')) ||
  (decide ('A' ≤ c) && decide (c ≤ 'F'))

/-- Numeric value of a hex digit. -/
def hexVal (c : Char) : Nat :=
  if decide ('0' ≤ c) && decide (c ≤ '9') then c.toNat - '0'.toNat
  else if decide ('a' ≤ c) && decide (c ≤ 'f') then c.toNat - 'a'.toNat + 10
  else c.toNat - 'A'.toNat + 10

/-- Parse a non-empty all-hex character sequence to its value; none on an
empty or malformed (non-hex) field. -/
def hexNum (cs : List Char) : Option Nat :=
  if cs.isEmpty then none
  else if cs.all hexDigit then some (cs.foldl (fun acc c => 16 * acc + hexVal c) 0)
  else none

/-- Split a character list on a separator character (separators dropped). -/
def splitCh (sep : Char) : List Char → List (List Char)
  | [] => [[]]
  | c :: rest =>
    if c = sep then [] :: splitCh sep rest
    else
      match splitCh sep rest with
      | [] => [[c]]
      | w :: ws => (c :: w) :: ws

/-- Whitespace-separated fields of a line. -/
def fieldsOf (line : String) : List (List Char) :=
  (splitCh ' ' line.toList).filter (fun w => !w.isEmpty)

/-- Join words back with single spaces (the optional trailing path is the
remainder of the line after the inode field). -/
def joinSp : List (List Char) → List Char
  | [] => []
  | [w] => w
  | w :: ws => w ++ ' ' :: joinSp ws

/-- s starts with pre (std::string prefix test). -/
def strStartsWith (s pre : String) : Bool :=
  pre.toList.isPrefixOf s.toList

/-- s ends with suffix (android::base::EndsWith). -/
def strEndsWith (s suffix : String) : Bool :=
  suffix.toList.isSuffixOf s.toList

/-- Permission bits of the first three characters of the permission field:
each of r, w, x maps directly to the corresponding PROT_* bit, any other
character (notably the dash) contributes nothing. -/
def permFlags (c0 c1 c2 : Char) : Nat :=
  (if c0 = 'r' then PROT_READ else 0) +
  (if c1 = 'w' then PROT_WRITE else 0) +
  (if c2 = 'x' then PROT_EXEC else 0)

/-- Device-backed bit, per the header comment on PROT_DEVICE_MAP (lines
36-38): set for a map whose path is in /dev/, except under /dev/ashmem/. -/
def deviceFlag (name : String) : Nat :=
  if strStartsWith name "/dev/" && !strStartsWith name "/dev/ashmem/" then PROT_DEVICE_MAP
  else 0

/-- The record a successful parse produces. -/
def mkRecord (startAddr stopAddr offs : Nat) (c0 c1 c2 : Char) (name : String) :
    backtrace_map_t :=
  { start := startAddr, end_ := stopAddr, offset := offs, load_bias := 0,
    flags := permFlags c0 c1 c2 + deviceFlag name, name := name }

/-- Modelled from the spec: the body of BacktraceMap::ParseLine is not in the
sources (the header only declares it, line 119). Per the spec the required
fields, in order, are a hyphen-separated hex start-end address range, a
4-character permission string (r or dash, w or dash, x or dash, then a
shared/private character ignored for flags), a hex file offset, a device identifier (ignored), an
inode number (ignored), and an optional trailing path taken as the remainder
of the line. Malformed numeric fields or missing mandatory fields fail the
parse (none); permission characters map to the PROT_* bits and a /dev/ path
outside /dev/ashmem/ additionally sets PROT_DEVICE_MAP. The bool-plus-out-
parameter C++ signature is rendered as Option backtrace_map_t. -/
def ParseLine (line : String) : Option backtrace_map_t :=
  match fieldsOf line with
  | range :: perms :: offs :: _dev :: _inode :: rest =>
    match splitCh '-' range, perms with
    | [s, e], [c0, c1, c2, _c3] =>
      match hexNum s, hexNum e, hexNum offs with
      | some startAddr, some stopAddr, some offsVal =>
        some (mkRecord startAddr stopAddr offsVal c0 c1 c2 (String.mk (joinSp rest)))
      | _, _, _ => none
    | _, _ => none
  | _ => none

/-- Whether a parsed record is dropped by the configured suffix filter: its
name ends with one of the suffixes to ignore. -/
def recordExcluded (suffixes : List String) (m : backtrace_map_t) : Bool :=
  suffixes.any (fun suf => strEndsWith m.name suf)

/-- Modelled from the spec: the body of BacktraceMap::Build is not in the
sources (the header only declares it, line 104). The mapping-table source is
passed explicitly: none models a table that cannot be opened or read, some
lines a successful read of its lines. Per the spec a failed read returns
false and leaves the prior contents (and the unbuilt/built state) unchanged;
a successful read replaces the store with the records of the lines that
parse and are not dropped by the suffix filter, and returns true even when
zero mappings result. -/
def BacktraceMap.Build (bm : BacktraceMap) (source : Option (List String)) :
    Bool × BacktraceMap :=
  match source with
  | none => (false, bm)
  | some lines =>
    (true,
     { bm with
       maps_ :=
         (lines.filterMap ParseLine).filter
           (fun m => !recordExcluded bm.suffixes_to_ignore_ m) })

/-- Strictly ascending start addresses along the store. -/
def StoreAscending (l : List backtrace_map_t) : Prop :=
  l.Pairwise (fun m1 m2 => m1.start < m2.start)

/-- Pairwise non-overlapping [start, end) ranges: no address lies in two
records of the store. -/
def StoreNonOverlapping (l : List backtrace_map_t) : Prop :=
  l.Pairwise (fun m1 m2 => ∀ a, ¬(inRange m1 a ∧ inRange m2 a))

/-! ### Helper lemmas about FillIn and GetFlags -/

lemma find?_inRange_eq_some {l : List backtrace_map_t} {a : Nat} {m : backtrace_map_t}
    (hnd : StoreNonOverlapping l) (hm : m ∈ l) (ha : inRange m a) :
    l.find? (fun r => decide (inRange r a)) = some m := by
  induction l with
  | nil => cases hm
  | cons h t ih =>
    rcases List.pairwise_cons.mp hnd with ⟨hhd, htl⟩
    rcases List.mem_cons.mp hm with rfl | hm'
    · exact List.find?_cons_of_pos _ (decide_eq_true ha)
    · have hnot : ¬ inRange h a := fun hh => hhd m hm' a ⟨hh, ha⟩
      rw [List.find?_cons_of_neg (p := fun r => decide (inRange r a)) t (by simpa using hnot)]
      exact ih htl hm'

lemma fillIn_eq_of_mem {bm : BacktraceMap} {a : Nat} {m : backtrace_map_t}
    (hnd : StoreNonOverlapping bm.maps_) (hm : m ∈ bm.maps_) (ha : inRange m a) :
    bm.FillIn a = m := by
  unfold BacktraceMap.FillIn
  rw [find?_inRange_eq_some hnd hm ha]

lemma fillIn_eq_default_of_none {bm : BacktraceMap} {a : Nat}
    (h : ∀ m ∈ bm.maps_, ¬ inRange m a) :
    bm.FillIn a = {} := by
  unfold BacktraceMap.FillIn
  rw [List.find?_eq_none.mpr (fun x hx hc => h x hx (of_decide_eq_true hc))]

lemma fillIn_mem_or_default (bm : BacktraceMap) (a : Nat) :
    bm.FillIn a ∈ bm.maps_ ∨ bm.FillIn a = {} := by
  unfold BacktraceMap.FillIn
  cases hfind : bm.maps_.find? (fun r => decide (inRange r a)) with
  | none => exact Or.inr rfl
  | some r => exact Or.inl (List.mem_of_find?_eq_some hfind)

lemma getFlags_eq_flags_of_valid {bm : BacktraceMap} {pc : Nat}
    (h : BacktraceMap.IsValid (bm.FillIn pc) = true) :
    bm.GetFlags pc = (bm.FillIn pc).flags := by
  simp [BacktraceMap.GetFlags, h]

lemma getFlags_eq_none_of_outside {bm : BacktraceMap} {pc : Nat}
    (h : ∀ m ∈ bm.maps_, ¬ inRange m pc) :
    bm.GetFlags pc = PROT_NONE := by
  simp [BacktraceMap.GetFlags, fillIn_eq_default_of_none h, BacktraceMap.IsValid]

/-! ### Claim theorems -/

/-- C1: if an address a lies inside some stored record's [start, end) range
(the store satisfying its non-overlap invariant, so that record is unique),
FillIn a returns that exact record; if a lies outside every stored record's
range — in particular when the store is empty/unbuilt — FillIn a returns the
invalid sentinel record, whose end field is 0. -/
theorem fillIn_spec (bm : BacktraceMap) (a : Nat) :
    (StoreNonOverlapping bm.maps_ → ∀ m ∈ bm.maps_, inRange m a → bm.FillIn a = m) ∧
    ((∀ m ∈ bm.maps_, ¬ inRange m a) → bm.FillIn a = {}) ∧
    (bm.maps_ = [] → bm.FillIn a = {}) ∧
    ({} : backtrace_map_t).end_ = 0 := by
  refine ⟨fun hnd m hm ha => fillIn_eq_of_mem hnd hm ha,
          fun h => fillIn_eq_default_of_none h, fun he => ?_, rfl⟩
  exact fillIn_eq_default_of_none (fun m hm => by rw [he] at hm; cases hm)

/-- Witness for C1 at a concrete one-record store. -/
theorem fillIn_spec_witness :
    BacktraceMap.FillIn ⟨0, [⟨4096, 8192, 0, 0, 3, "/a"⟩], []⟩ 5000 = ⟨4096, 8192, 0, 0, 3, "/a"⟩ ∧
    BacktraceMap.FillIn ⟨0, [⟨4096, 8192, 0, 0, 3, "/a"⟩], []⟩ 9000 = {} ∧
    BacktraceMap.FillIn ⟨0, [], []⟩ 5000 = {} :=
  ⟨(fillIn_spec ⟨0, [⟨4096, 8192, 0, 0, 3, "/a"⟩], []⟩ 5000).1
      (by unfold StoreNonOverlapping; simp) _ (by simp) (by decide),
   (fillIn_spec ⟨0, [⟨4096, 8192, 0, 0, 3, "/a"⟩], []⟩ 9000).2.1 (by decide),
   (fillIn_spec ⟨0, [], []⟩ 5000).2.2.1 rfl⟩

/-- C3: GetFlags pc equals the flags of the record FillIn pc produces when
that record is valid, and equals PROT_NONE when pc is outside every mapping;
IsReadable, IsWritable and IsExecutable hold exactly when the PROT_READ,
PROT_WRITE, PROT_EXEC bit respectively is set in GetFlags pc. -/
theorem getFlags_spec (bm : BacktraceMap) (pc : Nat) :
    (BacktraceMap.IsValid (bm.FillIn pc) = true → bm.GetFlags pc = (bm.FillIn pc).flags) ∧
    ((∀ m ∈ bm.maps_, ¬ inRange m pc) → bm.GetFlags pc = PROT_NONE) ∧
    (bm.IsReadable pc = true ↔ bm.GetFlags pc &&& PROT_READ ≠ 0) ∧
    (bm.IsWritable pc = true ↔ bm.GetFlags pc &&& PROT_WRITE ≠ 0) ∧
    (bm.IsExecutable pc = true ↔ bm.GetFlags pc &&& PROT_EXEC ≠ 0) := by
  refine ⟨fun h => getFlags_eq_flags_of_valid h, fun h => getFlags_eq_none_of_outside h,
          ?_, ?_, ?_⟩ <;>
    simp [BacktraceMap.IsReadable, BacktraceMap.IsWritable, BacktraceMap.IsExecutable,
      bne_iff_ne]

/-- Witness for C3 at a concrete one-record store. -/
theorem getFlags_spec_witness :
    BacktraceMap.GetFlags ⟨0, [⟨4096, 8192, 0, 0, 5, "/a"⟩], []⟩ 5000 =
      (BacktraceMap.FillIn ⟨0, [⟨4096, 8192, 0, 0, 5, "/a"⟩], []⟩ 5000).flags ∧
    BacktraceMap.GetFlags ⟨0, [⟨4096, 8192, 0, 0, 5, "/a"⟩], []⟩ 9000 = PROT_NONE :=
  ⟨(getFlags_spec ⟨0, [⟨4096, 8192, 0, 0, 5, "/a"⟩], []⟩ 5000).1 (by decide),
   (getFlags_spec ⟨0, [⟨4096, 8192, 0, 0, 5, "/a"⟩], []⟩ 9000).2.1 (by decide)⟩

/-- C9: IsValid m holds exactly when m.end is positive; no other field is
consulted, so a record with end positive but start at or above end is still
valid, and the GetFlags of an address whose FillIn record has end positive
is that record's flags, never PROT_NONE. -/
theorem isValid_end_only :
    (∀ m : backtrace_map_t, BacktraceMap.IsValid m = true ↔ 0 < m.end_) ∧
    (∀ m : backtrace_map_t, 0 < m.end_ → m.end_ ≤ m.start → BacktraceMap.IsValid m = true) ∧
    (∀ (bm : BacktraceMap) (pc : Nat), 0 < (bm.FillIn pc).end_ →
      bm.GetFlags pc = (bm.FillIn pc).flags) := by
  refine ⟨fun m => by simp [BacktraceMap.IsValid],
          fun m h0 _ => by simp [BacktraceMap.IsValid]; exact h0,
          fun bm pc h0 => getFlags_eq_flags_of_valid (by simp [BacktraceMap.IsValid]; exact h0)⟩

/-- Witness for C9: a degenerate record with start above end is valid, and a
concrete GetFlags returns the FillIn record's flags. -/
theorem isValid_end_only_witness :
    BacktraceMap.IsValid ⟨100, 5, 0, 0, 7, ""⟩ = true ∧
    BacktraceMap.GetFlags ⟨0, [⟨0, 10, 0, 0, 7, ""⟩], []⟩ 3 =
      (BacktraceMap.FillIn ⟨0, [⟨0, 10, 0, 0, 7, ""⟩], []⟩ 3).flags :=
  ⟨isValid_end_only.2.1 ⟨100, 5, 0, 0, 7, ""⟩ (by decide) (by decide),
   isValid_end_only.2.2 ⟨0, [⟨0, 10, 0, 0, 7, ""⟩], []⟩ 3 (by decide)⟩

/-- C10: SetSuffixesToIgnore appends the given suffixes to the end of the
existing list: after any sequence of calls, GetSuffixesToIgnore returns the
initial list followed by the concatenation of every suffix ever passed, in
call order, so no previously configured suffix is ever removed. -/
theorem setSuffixes_appends (bm : BacktraceMap) (calls : List (List String)) :
    (calls.foldl BacktraceMap.SetSuffixesToIgnore bm).GetSuffixesToIgnore =
      bm.GetSuffixesToIgnore ++ calls.flatten := by
  induction calls generalizing bm with
  | nil => simp [BacktraceMap.GetSuffixesToIgnore]
  | cons c cs ih =>
    rw [List.foldl_cons, ih]
    simp [BacktraceMap.GetSuffixesToIgnore, BacktraceMap.SetSuffixesToIgnore,
      List.append_assoc]

/-- C5: Build on an unreadable source returns false and leaves the stored
contents (and so the unbuilt/built state) unchanged; Build on a successfully
read source returns true, even when zero mappings result. -/
theorem build_failure_spec (bm : BacktraceMap) :
    bm.Build none = (false, bm) ∧
    (∀ lines, (bm.Build (some lines)).1 = true) ∧
    (bm.Build (some [])).2.maps_ = [] ∧ (bm.Build (some [])).1 = true := by
  exact ⟨rfl, fun lines => rfl, rfl, rfl⟩

/-- C4: a record parsed from an input line whose name ends with a configured
suffix is not added by Build — it is absent from the stored sequence and from
every subsequent FillIn result (any valid record FillIn could return) — and
this exclusion is distinct from a parse failure: ParseLine still succeeds. -/
theorem suffix_filter_excludes (bm : BacktraceMap) (lines : List String) (line : String)
    (m : backtrace_map_t) (suf : String)
    (hsuf : suf ∈ bm.suffixes_to_ignore_) (hline : line ∈ lines)
    (hparse : ParseLine line = some m) (hend : strEndsWith m.name suf = true) :
    ParseLine line ≠ none ∧
    m ∉ (bm.Build (some lines)).2.maps_ ∧
    (∀ a, 0 < m.end_ → (bm.Build (some lines)).2.FillIn a ≠ m) := by
  have hex : recordExcluded bm.suffixes_to_ignore_ m = true := by
    simp only [recordExcluded]
    exact List.any_eq_true.mpr ⟨suf, hsuf, hend⟩
  have hstore : (bm.Build (some lines)).2.maps_ =
      (lines.filterMap ParseLine).filter
        (fun r => !recordExcluded bm.suffixes_to_ignore_ r) := rfl
  refine ⟨by simp [hparse], ?_, ?_⟩
  · rw [hstore]
    intro hmem
    have hkeep := (List.mem_filter.mp hmem).2
    simp [hex] at hkeep
  · intro a h0 heq
    rcases fillIn_mem_or_default (bm.Build (some lines)).2 a with hmem | hdef
    · rw [heq, hstore] at hmem
      have hkeep := (List.mem_filter.mp hmem).2
      simp [hex] at hkeep
    · have hm0 : m = {} := heq.symm.trans hdef
      rw [hm0] at h0
      exact absurd h0 (by decide)

/-- Witness for C4: with suffix filter .so, the parsed /lib/x.so record is
excluded even though its line parses. -/
theorem suffix_filter_excludes_witness :
    ParseLine "1000-2000 r-xp 0 08:01 1 /lib/x.so" ≠ none ∧
    (⟨4096, 8192, 0, 0, 5, "/lib/x.so"⟩ : backtrace_map_t) ∉
      (BacktraceMap.Build ⟨0, [], [".so"]⟩
        (some ["1000-2000 r-xp 0 08:01 1 /lib/x.so"])).2.maps_ ∧
    (BacktraceMap.Build ⟨0, [], [".so"]⟩
        (some ["1000-2000 r-xp 0 08:01 1 /lib/x.so"])).2.FillIn 5000 ≠
      ⟨4096, 8192, 0, 0, 5, "/lib/x.so"⟩ :=
  ⟨(suffix_filter_excludes ⟨0, [], [".so"]⟩ ["1000-2000 r-xp 0 08:01 1 /lib/x.so"]
      "1000-2000 r-xp 0 08:01 1 /lib/x.so" ⟨4096, 8192, 0, 0, 5, "/lib/x.so"⟩ ".so"
      (by decide) (by decide) (by decide) (by decide)).1,
   (suffix_filter_excludes ⟨0, [], [".so"]⟩ ["1000-2000 r-xp 0 08:01 1 /lib/x.so"]
      "1000-2000 r-xp 0 08:01 1 /lib/x.so" ⟨4096, 8192, 0, 0, 5, "/lib/x.so"⟩ ".so"
      (by decide) (by decide) (by decide) (by decide)).2.1,
   (suffix_filter_excludes ⟨0, [], [".so"]⟩ ["1000-2000 r-xp 0 08:01 1 /lib/x.so"]
      "1000-2000 r-xp 0 08:01 1 /lib/x.so" ⟨4096, 8192, 0, 0, 5, "/lib/x.so"⟩ ".so"
      (by decide) (by decide) (by decide) (by decide)).2.2 5000 (by decide)⟩

/-- C6: a line that fails ParseLine contributes no record: a Build whose
input contains it yields exactly the store of the same Build without it (the
well-formed sibling lines are still parsed and added) and still returns
true. -/
theorem malformed_line_skipped (bm : BacktraceMap) (l1 l2 : List String) (bad : String)
    (hbad : ParseLine bad = none) :
    bm.Build (some (l1 ++ bad :: l2)) = bm.Build (some (l1 ++ l2)) ∧
    (bm.Build (some (l1 ++ bad :: l2))).1 = true := by
  refine ⟨?_, rfl⟩
  simp [BacktraceMap.Build, List.filterMap_append, List.filterMap_cons, hbad]

/-- Witness for C6: a line with a non-hex address field (zz-4000) is skipped
while its well-formed siblings still build. -/
theorem malformed_line_skipped_witness :
    BacktraceMap.Build ⟨0, [], []⟩
        (some (["1000-2000 r-xp 0 08:01 1 /a"] ++
          "zz-4000 r-xp 0 08:01 1 /c" :: ["3000-4000 r--p 0 08:01 1 /b"])) =
      BacktraceMap.Build ⟨0, [], []⟩
        (some (["1000-2000 r-xp 0 08:01 1 /a"] ++ ["3000-4000 r--p 0 08:01 1 /b"])) ∧
    (BacktraceMap.Build ⟨0, [], []⟩
        (some (["1000-2000 r-xp 0 08:01 1 /a"] ++
          "zz-4000 r-xp 0 08:01 1 /c" :: ["3000-4000 r--p 0 08:01 1 /b"]))).1 = true :=
  malformed_line_skipped ⟨0, [], []⟩ ["1000-2000 r-xp 0 08:01 1 /a"]
    ["3000-4000 r--p 0 08:01 1 /b"] "zz-4000 r-xp 0 08:01 1 /c" (by decide)

/-- C7: the specific line 7f0000001000-7f0000002000 r-xp 00000000 08:01 1234
/lib/x.so parses to a record with start 0x7f0000001000, end 0x7f0000002000,
the readable and executable bits set, the writable bit clear, and name
/lib/x.so. -/
theorem parseLine_roundtrip :
    ∃ m : backtrace_map_t,
      ParseLine "7f0000001000-7f0000002000 r-xp 00000000 08:01 1234 /lib/x.so" = some m ∧
      m.start = 0x7f0000001000 ∧ m.end_ = 0x7f0000002000 ∧
      m.flags &&& PROT_READ ≠ 0 ∧ m.flags &&& PROT_WRITE = 0 ∧ m.flags &&& PROT_EXEC ≠ 0 ∧
      m.name = "/lib/x.so" :=
  ⟨⟨0x7f0000001000, 0x7f0000002000, 0, 0, 5, "/lib/x.so"⟩, by decide⟩

/-- C2: when the successfully parsed records of the source lines are strictly
ascending in start and pairwise non-overlapping (the order the kernel
mapping table provides), the store a successful Build produces — whose
iteration sequence is exactly maps_ — is strictly ascending in start and
pairwise non-overlapping; this holds for every store and hence after every
rebuild. -/
theorem build_preserves_order (bm : BacktraceMap) (lines : List String)
    (hasc : StoreAscending (lines.filterMap ParseLine))
    (hnov : StoreNonOverlapping (lines.filterMap ParseLine)) :
    StoreAscending (bm.Build (some lines)).2.maps_ ∧
    StoreNonOverlapping (bm.Build (some lines)).2.maps_ := by
  unfold StoreAscending StoreNonOverlapping at *
  have hsub : (bm.Build (some lines)).2.maps_.Sublist (lines.filterMap ParseLine) :=
    List.filter_sublist _
  exact ⟨hasc.sublist hsub, hnov.sublist hsub⟩

/-! ### Helper lemmas for the device-map flag -/

lemma parseLine_shape {line : String} {m : backtrace_map_t} (h : ParseLine line = some m) :
    ∃ s e o c0 c1 c2 nm, m = mkRecord s e o c0 c1 c2 nm := by
  unfold ParseLine at h
  repeat' split at h
  all_goals first
    | exact Option.noConfusion h
    | exact ⟨_, _, _, _, _, _, _, (Option.some.inj h).symm⟩

lemma permFlags_le (c0 c1 c2 : Char) : permFlags c0 c1 c2 ≤ 7 := by
  unfold permFlags PROT_READ PROT_WRITE PROT_EXEC
  split_ifs <;> decide

lemma deviceFlag_cases (nm : String) : deviceFlag nm = 0 ∨ deviceFlag nm = PROT_DEVICE_MAP := by
  unfold deviceFlag
  split <;> simp

lemma deviceFlag_ne_iff (nm : String) :
    ¬ deviceFlag nm = 0 ↔
      (strStartsWith nm "/dev/" = true ∧ strStartsWith nm "/dev/ashmem/" = false) := by
  unfold deviceFlag
  by_cases h1 : strStartsWith nm "/dev/" = true
  · by_cases h2 : strStartsWith nm "/dev/ashmem/" = false
    · simp [h1, h2, PROT_DEVICE_MAP]
    · have h2' : strStartsWith nm "/dev/ashmem/" = true := by
        cases hx : strStartsWith nm "/dev/ashmem/" <;> simp_all
      simp [h1, h2']
  · have h1' : strStartsWith nm "/dev/" = false := by
      cases hx : strStartsWith nm "/dev/" <;> simp_all
    simp [h1']

lemma flags_bits (p d : Nat) (hp : p ≤ 7) (hd : d = 0 ∨ d = PROT_DEVICE_MAP) :
    ((p + d) &&& PROT_DEVICE_MAP = 0 ↔ d = 0) ∧
    (p + d) &&& (PROT_READ ||| PROT_WRITE ||| PROT_EXEC) = p := by
  rcases hd with rfl | rfl <;>
    (unfold PROT_DEVICE_MAP PROT_READ PROT_WRITE PROT_EXEC; interval_cases p <;> decide)

/-- C8: every successfully parsed record has the device-backed flag
PROT_DEVICE_MAP (0x8000) set exactly when its path begins with /dev/ but not
with /dev/ashmem/, and the flag is layered on top of the parsed permission
bits: the flags are the PROT_READ/WRITE/EXEC portion plus the device bit the
path-matching rule assigns. -/
theorem device_map_flag_spec (line : String) (m : backtrace_map_t)
    (h : ParseLine line = some m) :
    ((m.flags &&& PROT_DEVICE_MAP ≠ 0) ↔
      (strStartsWith m.name "/dev/" = true ∧ strStartsWith m.name "/dev/ashmem/" = false)) ∧
    m.flags = (m.flags &&& (PROT_READ ||| PROT_WRITE ||| PROT_EXEC)) + deviceFlag m.name := by
  obtain ⟨s, e, o, c0, c1, c2, nm, rfl⟩ := parseLine_shape h
  have hb := flags_bits (permFlags c0 c1 c2) (deviceFlag nm) (permFlags_le c0 c1 c2)
    (deviceFlag_cases nm)
  constructor
  · exact (not_congr hb.1).trans (deviceFlag_ne_iff nm)
  · show permFlags c0 c1 c2 + deviceFlag nm =
      ((permFlags c0 c1 c2 + deviceFlag nm) &&& (PROT_READ ||| PROT_WRITE ||| PROT_EXEC)) +
        deviceFlag nm
    rw [hb.2]

/-- Witness for C8 at a parsed /dev/binder line (device bit set on top of rw
permissions). -/
theorem device_map_flag_spec_witness :
    (((⟨4096, 8192, 0, 0, 32771, "/dev/binder"⟩ : backtrace_map_t).flags &&&
        PROT_DEVICE_MAP ≠ 0) ↔
      (strStartsWith (⟨4096, 8192, 0, 0, 32771, "/dev/binder"⟩ : backtrace_map_t).name
          "/dev/" = true ∧
        strStartsWith (⟨4096, 8192, 0, 0, 32771, "/dev/binder"⟩ : backtrace_map_t).name
          "/dev/ashmem/" = false)) ∧
    (⟨4096, 8192, 0, 0, 32771, "/dev/binder"⟩ : backtrace_map_t).flags =
      ((⟨4096, 8192, 0, 0, 32771, "/dev/binder"⟩ : backtrace_map_t).flags &&&
          (PROT_READ ||| PROT_WRITE ||| PROT_EXEC)) +
        deviceFlag (⟨4096, 8192, 0, 0, 32771, "/dev/binder"⟩ : backtrace_map_t).name :=
  device_map_flag_spec "1000-2000 rw-p 0 08:01 9 /dev/binder"
    ⟨4096, 8192, 0, 0, 32771, "/dev/binder"⟩ (by decide)

/-- Witness for C2: a concrete two-line build from an ascending,
non-overlapping source table has an ascending, non-overlapping store. -/
theorem build_preserves_order_witness :
    StoreAscending (BacktraceMap.Build ⟨0, [], []⟩
      (some ["1000-2000 r-xp 0 08:01 1 /a", "2000-3000 r--p 0 08:01 1 /b"])).2.maps_ ∧
    StoreNonOverlapping (BacktraceMap.Build ⟨0, [], []⟩
      (some ["1000-2000 r-xp 0 08:01 1 /a", "2000-3000 r--p 0 08:01 1 /b"])).2.maps_ := by
  have e : ["1000-2000 r-xp 0 08:01 1 /a", "2000-3000 r--p 0 08:01 1 /b"].filterMap ParseLine =
      [⟨4096, 8192, 0, 0, 5, "/a"⟩, ⟨8192, 12288, 0, 0, 1, "/b"⟩] := by decide
  refine build_preserves_order ⟨0, [], []⟩ _ ?_ ?_
  · unfold StoreAscending
    rw [e]
    exact List.Pairwise.cons (by intro b hb; simp [List.mem_singleton] at hb; simp [hb])
      (List.pairwise_singleton _ _)
  · unfold StoreNonOverlapping
    rw [e]
    refine List.Pairwise.cons ?_ (List.pairwise_singleton _ _)
    intro b hb x hx
    simp [List.mem_singleton] at hb
    subst hb
    simp [inRange] at hx
    omega
